import Mathlib

/-!
Verification development for the Ledger & Balance Consistency Engine of
`app_firestore.py` (family-accounting-streamlit).

The Python functions `transaction_update` (the body wrapped by
`@firestore.transactional`), `update_balance_transactional`,
`get_current_balance`, `add_record`, `delete_record` and `get_all_records`
are embedded as executable Lean functions over an explicit application
state.  Money is modelled as `ℤ`: every amount the app writes is
`float(safe_int(...))`, i.e. integer-valued, and the balance arithmetic is
pure addition/subtraction, which is exact for these values in Python
floats.  Firestore is modelled by the state fields: the record collection
is an association list keyed by the store-allocated document id, and the
balance document is `Option ℤ` (`none` = document absent).  Streamlit UI
effects (`st.error`, `st.warning`, `st.toast`) are modelled as message
lists so that "logged" and "propagated" failures can be distinguished.

Concurrent interference with the optimistic balance transaction is
modelled by a schedule: at each commit attempt, an entry `some b` means a
concurrent writer won the race and left the balance document at `b`
(forcing a retry), `none` (or schedule exhausted) means the commit lands.
The google-cloud-firestore `transactional` decorator retries a conflicted
transaction up to `max_attempts` (default 5, the value used by
`db.transaction()` in the source) and then raises.
-/

/-- Calendar date (year, month, day), the value of a Python `datetime.date`. -/
structure CalDate where
  y : Nat
  m : Nat
  d : Nat
deriving DecidableEq

/-- Python `datetime.datetime`: calendar date, seconds within the day (the
sub-second part is immaterial to every claim), and whether the value is
timezone-aware.  Every aware datetime this app creates or reads back from
Firestore is in UTC, so `pd.to_datetime(..., utc=True).dt.tz_convert(None)`
leaves the clock fields unchanged and only drops the awareness flag. -/
structure PyDateTime where
  date : CalDate
  secs : Nat
  aware : Bool
deriving DecidableEq

/-- A field value inside a raw Firestore record document, as it comes back
from `doc.to_dict()`: a Firestore timestamp (which has `to_pydatetime`), a
string, a number, or the field being absent/None. -/
inductive FSVal where
  | ts (t : PyDateTime)
  | str (s : String)
  | num (q : ℚ)
  | absent
deriving DecidableEq

/-- A record document as written by `add_record` (the payment-account extras
`account_id`/`account_name` are optional fields orthogonal to every claim
and are omitted). -/
structure StoredRec where
  date : PyDateTime
  type : String
  category : String
  amount : ℤ
  note : String
  timestamp : PyDateTime
deriving DecidableEq

/-- The `date` entry of the `record_data` dict handed to `add_record`: the
form layer passes a `datetime.date`; any other shape takes branch C of the
date handling (`st.warning` plus "use current time"). -/
inductive InDate where
  | d (dd : CalDate)
  | other
deriving DecidableEq

/-- The `record_data` dict handed to `add_record` by the form layer. -/
structure RecordData where
  date : InDate
  type : String
  category : String
  amount : ℤ
  note : String
deriving DecidableEq

/-- Firestore-backed application state plus the Streamlit message channels.
`nextId` models the store's fresh document-id allocation in
`records_ref.add`; `balance` is the `account_status/current_balance`
document (`none` = absent). -/
structure AppState where
  nextId : Nat
  records : List (Nat × StoredRec)
  balance : Option ℤ
  errors : List String
  warnings : List String
  toasts : List String
deriving DecidableEq

def initState : AppState := ⟨0, [], none, [], [], []⟩

def msg_record_added : String := "交易紀錄已新增"

def msg_record_deleted : String := "交易紀錄已刪除"

def msg_balance_error : String := "更新餘額時發生錯誤"

def msg_date_warn : String := "日期格式無法識別，已使用當前時間"

/-- Body of the `@firestore.transactional` closure in
`update_balance_transactional`: read the balance snapshot, treat an absent
document as `0.0`, and write `current + amount_change`. -/
def transaction_update (bal : Option ℤ) (amount_change : ℤ) : ℤ :=
  (match bal with
   | some current_balance => current_balance
   | none => 0) + amount_change

/-- `db.transaction()` uses the library default of five attempts. -/
def firestore_max_attempts : Nat := 5

/-- The retry loop the `transactional` decorator runs around
`transaction_update`.  `sched` is the interference schedule: `some b` means
the commit of this attempt is aborted by a concurrent writer that left the
balance document at `b`; `none` or an exhausted schedule means the commit
lands, returning the new balance.  When all attempts conflict the library
raises; the `.error` value carries the balance document as the last
concurrent writer left it (this call's delta is not in it). -/
def transactional_attempts (amount_change : ℤ) :
    Nat → Option ℤ → List (Option ℤ) → Except (Option ℤ) ℤ
  | 0, bal, _ => Except.error bal
  | Nat.succ _, bal, [] => Except.ok (transaction_update bal amount_change)
  | Nat.succ _, bal, none :: _ => Except.ok (transaction_update bal amount_change)
  | Nat.succ k, _, some b :: rest => transactional_attempts amount_change k (some b) rest

/-- `update_balance_transactional(db, user_id, amount, operation)`.  The
`if db is None: return` guard is the `dbo = false` branch.  The whole
transaction call is wrapped in `try/except Exception: st.error(...)`, so a
raised retry-exhaustion error is converted into an appended error message
and a normal return; it is never re-raised to the caller. -/
def update_balance_transactional (dbo : Bool) (s : AppState) (amount : ℤ)
    (operation : String) (sched : List (Option ℤ)) : AppState :=
  if dbo = false then s
  else
    let amount_change := if operation = "add" then amount else -amount
    match transactional_attempts amount_change firestore_max_attempts s.balance sched with
    | Except.ok new_balance => { s with balance := some new_balance }
    | Except.error bal =>
        { s with balance := bal, errors := s.errors ++ [msg_balance_error] }

/-- `get_current_balance(db, user_id)`: return the balance document's value,
or lazily initialize the document to `0.0` and return `0.0` when absent. -/
def get_current_balance (dbo : Bool) (s : AppState) : ℤ × AppState :=
  if dbo = false then (0, s)
  else
    match s.balance with
    | some b => (b, s)
    | none => (0, { s with balance := some 0 })

/-- Steps 1-3 of `add_record`'s date handling: a date equal to today (in
UTC) becomes the precise aware `now_utc`; a past date becomes that day's
UTC midnight (aware); anything else falls back to `now_utc`. -/
def normDate (record_data : RecordData) (now_utc : PyDateTime) : PyDateTime :=
  match record_data.date with
  | InDate.d dd => if dd = now_utc.date then now_utc else ⟨dd, 0, true⟩
  | InDate.other => now_utc

/-- The `st.warning` emitted by branch C of `add_record`'s date handling. -/
def dateWarn (record_data : RecordData) : List String :=
  match record_data.date with
  | InDate.other => [msg_date_warn]
  | _ => []

/-- The document `add_record` hands to `records_ref.add`: the normalized
date, the form fields as-is, and `timestamp = now_utc`. -/
def storedOf (record_data : RecordData) (now_utc : PyDateTime) : StoredRec :=
  ⟨normDate record_data now_utc, record_data.type, record_data.category,
   record_data.amount, record_data.note, now_utc⟩

/-- `add_record(db, user_id, record_data)` with the current UTC time and the
balance-transaction interference schedule made explicit.  Note there is no
input validation anywhere in the body: the record is stored as-is (after
date normalization) and then the balance is updated by `amount` with
operation `add` for `收入` (Income) and `subtract` otherwise. -/
def add_record (dbo : Bool) (s : AppState) (record_data : RecordData)
    (now_utc : PyDateTime) (sched : List (Option ℤ)) : AppState :=
  if dbo = false then s
  else
    let stored := storedOf record_data now_utc
    let s1 : AppState :=
      { s with records := s.records ++ [(s.nextId, stored)],
               nextId := s.nextId + 1,
               warnings := s.warnings ++ dateWarn record_data,
               toasts := s.toasts ++ [msg_record_added] }
    let operation := if record_data.type = "收入" then "add" else "subtract"
    update_balance_transactional dbo s1 record_data.amount operation sched

/-- `delete_record(db, user_id, record_id, record_type, record_amount)`:
`record_doc_ref.delete()` is a Firestore document delete, which succeeds
whether or not the document exists (removing it when present), then the
reverse balance update is applied unconditionally.  There is no existence
check and no `RecordNotFound` anywhere in the source. -/
def delete_record (dbo : Bool) (s : AppState) (record_id : Nat)
    (record_type : String) (record_amount : ℤ) (sched : List (Option ℤ)) : AppState :=
  if dbo = false then s
  else
    let s1 : AppState :=
      { s with records := s.records.filter (fun p => p.1 != record_id),
               toasts := s.toasts ++ [msg_record_deleted] }
    let operation := if record_type = "收入" then "subtract" else "add"
    update_balance_transactional dbo s1 record_amount operation sched


/-- Decidable digit test used by the hand-rolled parsers (kept on `List
Char` so that the kernel can evaluate them). -/
def isDigitChar (c : Char) : Bool := decide ('0' ≤ c) && decide (c ≤ '9')

def digitsNat (cs : List Char) : Nat :=
  cs.foldl (fun n c => 10 * n + (c.toNat - 48)) 0

/-- Split a character list at every `'-'`, the field structure `strptime`
matches for the format `%Y-%m-%d`. -/
def splitDash : List Char → List (List Char)
  | [] => [[]]
  | '-' :: rest => [] :: splitDash rest
  | c :: rest =>
    match splitDash rest with
    | [] => [[c]]
    | g :: gs => (c :: g) :: gs

/-- `datetime.datetime.strptime(s, '%Y-%m-%d').date()` with the exception
turned into `none`: exactly three dash-separated all-digit fields of at
most 4/2/2 digits, with a calendar-valid year/month/day (Gregorian leap
rule, year in `date`'s range 1..9999). -/
def strptimeYMD (s : String) : Option CalDate :=
  match splitDash s.data with
  | [ys, ms, ds] =>
    if ys.length ≤ 4 ∧ ms.length ≤ 2 ∧ ds.length ≤ 2
       ∧ ys ≠ [] ∧ ms ≠ [] ∧ ds ≠ []
       ∧ ys.all isDigitChar ∧ ms.all isDigitChar ∧ ds.all isDigitChar then
      let y := digitsNat ys
      let m := digitsNat ms
      let d := digitsNat ds
      if 1 ≤ y ∧ y ≤ 9999 ∧ 1 ≤ m ∧ m ≤ 12 ∧ 1 ≤ d ∧ d ≤ daysInMonth y m
      then some ⟨y, m, d⟩ else none
    else none
  | _ => none
where
  daysInMonth (y m : Nat) : Nat :=
    if m = 2 then
      (if (y % 4 = 0 ∧ y % 100 ≠ 0) ∨ y % 400 = 0 then 29 else 28)
    else if m = 4 ∨ m = 6 ∨ m = 9 ∨ m = 11 then 30
    else 31

/-- Decimal-literal parse underlying `pd.to_numeric(..., errors='coerce')`
on a string value: optional sign, digits, optional single fractional part
(exponent and surrounding-whitespace forms do not occur in this app's data
and are omitted); anything else is unparseable (`none`, i.e. NaN). -/
def parseNumCore (cs : List Char) : Option ℚ :=
  let ip := cs.takeWhile isDigitChar
  match cs.drop ip.length with
  | [] => if ip.isEmpty then none else some ((digitsNat ip : ℤ) : ℚ)
  | '.' :: fp =>
    if fp.all isDigitChar ∧ (ip.isEmpty → fp ≠ []) then
      some ((digitsNat ip : ℚ) + (digitsNat fp : ℚ) / (10 : ℚ) ^ fp.length)
    else none
  | _ => none

def parseNum (s : String) : Option ℚ :=
  match s.data with
  | '-' :: rest => (parseNumCore rest).map fun q => -q
  | '+' :: rest => parseNumCore rest
  | cs => parseNumCore cs

/-- The `amount` column transform of `get_all_records`:
`pd.to_numeric(df['amount'], errors='coerce').fillna(0)` — numbers pass
through, numeric strings are parsed, everything else (absent/None,
unparseable strings, non-numeric objects) coerces to NaN and is filled
with `0`. -/
def coerceAmount : FSVal → ℚ
  | FSVal.num q => q
  | FSVal.str s => (parseNum s).getD 0
  | _ => 0

/-- The `astype(str)` rendering applied to the `type`/`category`/`note`
columns.  The app only ever writes strings into these fields, and no claim
depends on the rendered text of the other shapes. -/
def pyStr : FSVal → String
  | FSVal.str s => s
  | FSVal.num _ => "number"
  | FSVal.ts _ => "timestamp"
  | FSVal.absent => "None"

/-- A raw record document as returned by the Firestore query in
`get_all_records` (already in the query's timestamp-descending order).
`FSVal.absent` on a standard field means the key is missing from the
stored dict; `extras` holds any additional stored key/value pairs — the
form layer writes `account_id`/`account_name` whenever a payment method
is selected, and nothing in `get_all_records` ever drops them. -/
structure RawDoc where
  id : Nat
  date : FSVal
  type : FSVal
  category : FSVal
  amount : FSVal
  note : FSVal
  timestamp : FSVal
  extras : List (String × FSVal)
deriving DecidableEq

/-- One row of the DataFrame `get_all_records` returns.  The column
transforms touch only the expected columns; extra columns pass through
untouched. -/
structure Row where
  id : Nat
  date : Option PyDateTime
  type : String
  category : String
  amount : ℚ
  note : String
  timestamp : Option PyDateTime
  extras : List (String × FSVal)
deriving DecidableEq

/-- Step 1 of the per-document loop: parse the `timestamp` field (a
Firestore timestamp or an existing datetime; anything else becomes None). -/
def parsed_timestamp (doc : RawDoc) : Option PyDateTime :=
  match doc.timestamp with
  | FSVal.ts t => some t
  | _ => none

/-- Step 2 of the per-document loop: parse the `date` field (a Firestore
timestamp's calendar date, or a `YYYY-MM-DD` string; anything else stays
unparsed). -/
def parsed_date (doc : RawDoc) : Option CalDate :=
  match doc.date with
  | FSVal.ts t => some t.date
  | FSVal.str s => strptimeYMD s
  | _ => none

/-- Step 3 of the per-document loop (the fallback): a parsed date becomes
`datetime.combine(parsed_date, time.min)` — a timezone-naive midnight —
otherwise the parsed timestamp (an aware datetime) is used, otherwise
None. -/
def rowDateRaw (doc : RawDoc) : Option PyDateTime :=
  match parsed_date doc with
  | some d => some ⟨d, 0, false⟩
  | none => parsed_timestamp doc

/-- `pd.to_datetime(col, errors='coerce', utc=True).dt.tz_convert(None)` on
a single entry: naive values are localized as UTC and aware values are
already UTC, so the clock fields are unchanged and the tzinfo is dropped. -/
def toNaive (t : PyDateTime) : PyDateTime := { t with aware := false }

/-- The whole per-document pipeline of `get_all_records`: the 3-step date
fallback, the uniform tz-strip of the `date` and `timestamp` columns, the
timestamp backfill mask for NaT dates, and the column coercions. -/
def docToRow (doc : RawDoc) : Row :=
  let ts := (parsed_timestamp doc).map toNaive
  let d0 := (rowDateRaw doc).map toNaive
  let d : Option PyDateTime :=
    match d0, ts with
    | none, some t2 => some t2
    | x, _ => x
  ⟨doc.id, d, pyStr doc.type, pyStr doc.category, coerceAmount doc.amount,
   pyStr doc.note, ts, doc.extras⟩

def expected_columns : List String :=
  ["id", "date", "type", "category", "amount", "note", "timestamp"]

/-- The DataFrame shape `get_all_records` returns: its column list and its
rows. -/
structure RecordsFrame where
  cols : List String
  rows : List Row
deriving DecidableEq

/-- Append a key to the accumulated column list unless already present —
the first-appearance union `pd.DataFrame(list-of-dicts)` performs over the
row dicts' keys, and also the effect of the
`for col in expected_columns: if col not in df.columns: df[col] = None`
loop for a single missing column. -/
def addKey (acc : List String) (k : String) : List String :=
  if k ∈ acc then acc else acc ++ [k]

/-- The keys of one fetched document's dict as fed to `pd.DataFrame`:
the standard keys that are present in storage, the extra stored keys
(such as `account_id`/`account_name`), and the `id` the loop appends.
`date` and `timestamp` are always present because every branch of the
per-document loop assigns them.  The model fixes one definite insertion
order; no theorem depends on the column order, only on the column set. -/
def docKeys (doc : RawDoc) : List String :=
  ["date"]
  ++ (if doc.type ≠ FSVal.absent then ["type"] else [])
  ++ (if doc.category ≠ FSVal.absent then ["category"] else [])
  ++ (if doc.amount ≠ FSVal.absent then ["amount"] else [])
  ++ (if doc.note ≠ FSVal.absent then ["note"] else [])
  ++ ["timestamp"]
  ++ doc.extras.map Prod.fst
  ++ ["id"]

/-- The column list of the nonempty DataFrame: the first-appearance union
of the documents' keys, then the missing expected columns appended by the
`for col in expected_columns` loop.  Extra stored keys are never dropped. -/
def frameCols (docs : List RawDoc) : List String :=
  expected_columns.foldl addKey ((docs.map docKeys).flatten.foldl addKey [])

/-- `get_all_records(db, user_id)`: an uninitialized client or a failed
store read (`readRes = .error`, the `except` branch, which shows an
`st.error` and returns) yields an empty DataFrame with exactly the
expected columns, as does an empty record set (the `if not data` branch);
otherwise the frame's columns are the documents' own keys completed with
the missing expected columns, and every fetched document is normalized by
the per-document pipeline.  The function is total: no input makes it
raise to its caller. -/
def get_all_records (dbo : Bool) (readRes : Except Unit (List RawDoc)) : RecordsFrame :=
  if dbo = false then ⟨expected_columns, []⟩
  else
    match readRes with
    | Except.error _ => ⟨expected_columns, []⟩
    | Except.ok docs =>
      if docs.isEmpty then ⟨expected_columns, []⟩
      else ⟨frameCols docs, docs.map docToRow⟩


/-- Signed contribution of one stored record to the balance: `+amount` for
`收入` (Income), `-amount` otherwise. -/
def signedAmt (r : StoredRec) : ℤ :=
  if r.type = "收入" then r.amount else -r.amount

/-- Signed sum over the live record set. -/
def signedSum (rs : List (Nat × StoredRec)) : ℤ :=
  (rs.map fun p => signedAmt p.2).sum

/-- A coordinator-level operation as triggered from the UI: `append` is one
`add_record` call (with its current UTC time); `delete` is one
`delete_record` call on a live record's id, where the UI passes the
displayed record's own type and amount (read back from the store). -/
inductive Op where
  | append (record_data : RecordData) (now_utc : PyDateTime)
  | delete (record_id : Nat)
deriving DecidableEq

/-- Run one operation with no concurrent interference on the balance
transaction (the "no `BalanceUpdateConflict`" hypothesis of the claim).
A delete on a dead id leaves the state unchanged here; the validity
predicate `opsOk` rules that case out. -/
def applyOp (s : AppState) : Op → AppState
  | Op.append record_data now_utc => add_record true s record_data now_utc []
  | Op.delete record_id =>
    match s.records.find? (fun p => p.1 == record_id) with
    | some p => delete_record true s record_id p.2.type p.2.amount []
    | none => s

def runOps (s : AppState) (ops : List Op) : AppState := ops.foldl applyOp s

/-- An operation is admissible in a state when a delete targets a live id
(appends are always admissible). -/
def opOk (s : AppState) : Op → Bool
  | Op.append _ _ => true
  | Op.delete record_id => (s.records.find? (fun p => p.1 == record_id)).isSome

/-- Every operation of the sequence is admissible in the state it runs in. -/
def opsOk : AppState → List Op → Bool
  | _, [] => true
  | s, op :: rest => opOk s op && opsOk (applyOp s op) rest

/-- Induction invariant for the core balance property: store keys are
unique and below the allocator, and the balance document equals the signed
sum of the live records. -/
def StoreInv (s : AppState) : Prop :=
  (s.records.map Prod.fst).Nodup ∧ (∀ p ∈ s.records, p.1 < s.nextId)
    ∧ s.balance.getD 0 = signedSum s.records

/-- A minimal state holding a given balance document, used to express one
serialized successful commit of the compare-and-swap loop. -/
def mkBalState (bal : Option ℤ) : AppState := ⟨0, [], bal, [], [], []⟩

/-- One successfully committed `Append`-side balance update: the balance
document after `update_balance_transactional(db, uid, amount, 'add')`
commits against the document state `bal`. -/
def commitAppend (bal : Option ℤ) (amount : ℤ) : Option ℤ :=
  (update_balance_transactional true (mkBalState bal) amount "add" []).balance

/-- A concurrent history of N successful Appends, serialized in commit
order: under compare-and-swap semantics each successful transaction
atomically applies read-modify-write at its commit point, so any
interleaving of the calls is exactly some order of commits. -/
def runCommits (bal : Option ℤ) (amounts : List ℤ) : Option ℤ :=
  amounts.foldl commitAppend bal

/-- An interference schedule on which every one of the five commit attempts
is aborted by a concurrent writer (the last one leaving the balance
document at `5`). -/
def sched5 : List (Option ℤ) := [some 1, some 2, some 3, some 4, some 5]

def now2024 : PyDateTime := ⟨⟨2024, 1, 5⟩, 0, true⟩

def rdIncome100 : RecordData := ⟨InDate.d ⟨2024, 1, 5⟩, "收入", "薪資", 100, ""⟩

/-- A state holding one Income-100 record with a consistent balance. -/
def oneRecState : AppState :=
  ⟨1, [(0, ⟨now2024, "收入", "薪資", 100, "", now2024⟩)], some 100, [], [], []⟩

/-- A raw stored document with an unparseable `date` string and the
created-at timestamp `2024-02-01T03:00:00Z`. -/
def docNA : RawDoc :=
  ⟨0, FSVal.str "N/A", FSVal.str "支出", FSVal.str "餐飲", FSVal.num 120,
   FSVal.str "無備註", FSVal.ts ⟨⟨2024, 2, 1⟩, 10800, true⟩, []⟩

/-- A stored record carrying the optional payment-method fields the form
layer writes when a payment method is selected. -/
def docAcct : RawDoc :=
  ⟨1, FSVal.ts now2024, FSVal.str "支出", FSVal.str "餐飲", FSVal.num 120,
   FSVal.str "無備註", FSVal.ts now2024,
   [("account_id", FSVal.str "4f9c"), ("account_name", FSVal.str "現金")]⟩

/-- Concrete operation sequence for the core invariant: two appends and a
delete of the first record. -/
def opsW : List Op :=
  [Op.append ⟨InDate.d ⟨2024, 1, 5⟩, "支出", "餐飲", 120, ""⟩ now2024,
   Op.append ⟨InDate.d ⟨2024, 1, 10⟩, "收入", "薪資", 5000, ""⟩ now2024,
   Op.delete 0]

deriving instance DecidableEq for Except

lemma transaction_update_eq (bal : Option ℤ) (amount_change : ℤ) :
    transaction_update bal amount_change = bal.getD 0 + amount_change := by
  cases bal <;> rfl

lemma transactional_attempts_nil (a : ℤ) (bal : Option ℤ) :
    transactional_attempts a firestore_max_attempts bal []
      = Except.ok (transaction_update bal a) := rfl

lemma update_balance_ok (s : AppState) (amount : ℤ) (operation : String) :
    update_balance_transactional true s amount operation []
      = { s with balance := some (s.balance.getD 0
            + (if operation = "add" then amount else -amount)) } := by
  cases hb : s.balance <;>
    simp [update_balance_transactional, transactional_attempts_nil, transaction_update, hb]

lemma op_delta_add (ty : String) (amt : ℤ) :
    (if (if ty = "收入" then "add" else "subtract") = "add" then amt else -amt)
      = (if ty = "收入" then amt else -amt) := by
  by_cases h : ty = "收入"
  · rw [if_pos h, if_pos rfl, if_pos h]
  · rw [if_neg h, if_neg (by decide), if_neg h]

lemma op_delta_del (ty : String) (amt : ℤ) :
    (if (if ty = "收入" then "subtract" else "add") = "add" then amt else -amt)
      = (if ty = "收入" then -amt else amt) := by
  by_cases h : ty = "收入"
  · rw [if_pos h, if_neg (by decide), if_pos h]
  · rw [if_neg h, if_pos rfl, if_neg h]

lemma add_record_ok (s : AppState) (rd : RecordData) (now : PyDateTime) :
    add_record true s rd now []
      = { s with records := s.records ++ [(s.nextId, storedOf rd now)],
                 nextId := s.nextId + 1,
                 warnings := s.warnings ++ dateWarn rd,
                 toasts := s.toasts ++ [msg_record_added],
                 balance := some (s.balance.getD 0
                   + (if rd.type = "收入" then rd.amount else -rd.amount)) } := by
  show update_balance_transactional true _ rd.amount _ [] = _
  rw [update_balance_ok, op_delta_add]

lemma delete_record_ok (s : AppState) (rid : Nat) (ty : String) (amt : ℤ) :
    delete_record true s rid ty amt []
      = { s with records := s.records.filter (fun p => p.1 != rid),
                 toasts := s.toasts ++ [msg_record_deleted],
                 balance := some (s.balance.getD 0
                   + (if ty = "收入" then -amt else amt)) } := by
  show update_balance_transactional true _ amt _ [] = _
  rw [update_balance_ok, op_delta_del]

lemma update_balance_err (s : AppState) (amount : ℤ) (operation : String)
    (sched : List (Option ℤ)) (b : Option ℤ)
    (h : transactional_attempts (if operation = "add" then amount else -amount)
          firestore_max_attempts s.balance sched = Except.error b) :
    update_balance_transactional true s amount operation sched
      = { s with balance := b, errors := s.errors ++ [msg_balance_error] } := by
  simp [update_balance_transactional, h]

/-- C4: `UpdateBalance(delta)` reads the current balance treating an absent
balance document as 0 and commits `new = current + delta`; and the first
`get_current_balance` read with the document absent returns 0 (lazily
initializing the document to 0). -/
theorem C4_absent_balance_is_zero (s : AppState) (delta : ℤ) :
    transaction_update s.balance delta = s.balance.getD 0 + delta
    ∧ (update_balance_transactional true s delta "add" []).balance
        = some (s.balance.getD 0 + delta)
    ∧ (s.balance = none → get_current_balance true s = (0, { s with balance := some 0 })) := by
  refine ⟨transaction_update_eq _ _, ?_, ?_⟩
  · rw [update_balance_ok]
    simp
  · intro h
    simp [get_current_balance, h]

/-- Witness for C4 at the absent-document state with delta 7. -/
theorem C4_witness :
    initState.balance = none
    ∧ get_current_balance true initState = (0, { initState with balance := some 0 }) :=
  ⟨rfl, (C4_absent_balance_is_zero initState 7).2.2 rfl⟩

/-- C3 counterexample: the claim says `Append(amount=-5, ...)` (and empty
category) fails with `ValidationError`, creates no record and leaves the
Balance unchanged.  On the code, `add_record` with amount `-5`, empty
category succeeds with no error signal, creates the record, and moves the
balance from 0 to `+5` (the sign of an Expense applied to `-5`). -/
theorem C3_counterexample :
    (add_record true initState ⟨InDate.d ⟨2024, 1, 5⟩, "支出", "", -5, ""⟩ now2024 []).records.length = 1
    ∧ (add_record true initState ⟨InDate.d ⟨2024, 1, 5⟩, "支出", "", -5, ""⟩ now2024 []).balance = some 5
    ∧ (add_record true initState ⟨InDate.d ⟨2024, 1, 5⟩, "支出", "", -5, ""⟩ now2024 []).errors = [] := by
  decide

/-- C3 amended: `add_record` performs no input validation at all — for
every `record_data` (including non-positive amounts, empty category, or a
type outside {收入, 支出}) the record is stored as-is after date
normalization, the balance is updated by `+amount` for `收入` and
`-amount` otherwise, and no error is signalled; the amount/category
constraints exist only in the excluded UI form layer. -/
theorem C3_no_validation (s : AppState) (rd : RecordData) (now : PyDateTime) :
    (add_record true s rd now []).records = s.records ++ [(s.nextId, storedOf rd now)]
    ∧ (add_record true s rd now []).balance
        = some (s.balance.getD 0 + (if rd.type = "收入" then rd.amount else -rd.amount))
    ∧ (add_record true s rd now []).errors = s.errors := by
  rw [add_record_ok]
  exact ⟨rfl, rfl, rfl⟩

/-- C2 counterexample: the claim says the second of two `Delete(id)` calls
fails with `RecordNotFound` and the Balance reflects exactly one reversal
(here: 0).  On the code, starting from one live Income-100 record with
balance 100, the first delete removes the record, the second delete
succeeds again with no error signal, and the balance ends at `-100` — two
reversals. -/
theorem C2_counterexample :
    (delete_record true (delete_record true oneRecState 0 "收入" 100 []) 0 "收入" 100 []).balance
        = some (-100)
    ∧ (delete_record true (delete_record true oneRecState 0 "收入" 100 []) 0 "收入" 100 []).errors = []
    ∧ (delete_record true oneRecState 0 "收入" 100 []).records = [] := by
  decide

/-- C2 amended: `delete_record` never checks existence — a Firestore
document delete succeeds whether or not the id is live — and it applies
the reverse balance update unconditionally on every call, so two deletes
in a row signal no error and apply the reversal twice. -/
theorem C2_delete_unconditional (s : AppState) (rid : Nat) (ty : String) (amt : ℤ) :
    (delete_record true (delete_record true s rid ty amt []) rid ty amt []).balance
      = some (s.balance.getD 0 + (if ty = "收入" then -amt else amt)
              + (if ty = "收入" then -amt else amt))
    ∧ (delete_record true (delete_record true s rid ty amt []) rid ty amt []).errors = s.errors
    ∧ (delete_record true s rid ty amt []).records = s.records.filter (fun p => p.1 != rid) := by
  rw [delete_record_ok, delete_record_ok]
  exact ⟨rfl, rfl, rfl⟩

lemma add_record_err (s : AppState) (rd : RecordData) (now : PyDateTime)
    (sched : List (Option ℤ)) (b : Option ℤ)
    (h : transactional_attempts (if rd.type = "收入" then rd.amount else -rd.amount)
          firestore_max_attempts s.balance sched = Except.error b) :
    add_record true s rd now sched
      = { s with records := s.records ++ [(s.nextId, storedOf rd now)],
                 nextId := s.nextId + 1,
                 warnings := s.warnings ++ dateWarn rd,
                 toasts := s.toasts ++ [msg_record_added],
                 balance := b,
                 errors := s.errors ++ [msg_balance_error] } := by
  show update_balance_transactional true _ rd.amount _ sched = _
  rw [update_balance_err _ rd.amount _ sched b (by rw [op_delta_add]; exact h)]

lemma delete_record_err (s : AppState) (rid : Nat) (ty : String) (amt : ℤ)
    (sched : List (Option ℤ)) (b : Option ℤ)
    (h : transactional_attempts (if ty = "收入" then -amt else amt)
          firestore_max_attempts s.balance sched = Except.error b) :
    delete_record true s rid ty amt sched
      = { s with records := s.records.filter (fun p => p.1 != rid),
                 toasts := s.toasts ++ [msg_record_deleted],
                 balance := b,
                 errors := s.errors ++ [msg_balance_error] } := by
  show update_balance_transactional true _ amt _ sched = _
  rw [update_balance_err _ amt _ sched b (by rw [op_delta_del]; exact h)]

/-- C5 counterexample: the claim says an exhausted retry budget is
surfaced to the caller as an unresolved failure, never logged-and-ignored.
On the code, with every one of the five attempts conflicted, `add_record`
completes normally: the success toast is emitted, the record is stored,
the conflict exception is caught inside `update_balance_transactional` and
only appended to the `st.error` log, and the balance is left at the last
concurrent writer's value (the delta 100 is indeed not applied — that part
of the claim holds). -/
theorem C5_counterexample :
    (add_record true initState rdIncome100 now2024 sched5).balance = some 5
    ∧ (add_record true initState rdIncome100 now2024 sched5).errors = [msg_balance_error]
    ∧ (add_record true initState rdIncome100 now2024 sched5).toasts = [msg_record_added]
    ∧ (add_record true initState rdIncome100 now2024 sched5).records.length = 1 := by
  decide

/-- C5 amended: when the five-attempt budget is exhausted, the delta is
not applied and the retrying is bounded; but the raised conflict is caught
inside `update_balance_transactional`, displayed via `st.error`, and the
coordinator-level operation returns normally — the failure is
logged-and-ignored with respect to the immediate caller, which continues
as if the update had succeeded. -/
theorem C5_conflict_logged_not_raised (s : AppState) (rd : RecordData)
    (now : PyDateTime) (sched : List (Option ℤ)) (b : Option ℤ)
    (h : transactional_attempts (if rd.type = "收入" then rd.amount else -rd.amount)
          firestore_max_attempts s.balance sched = Except.error b) :
    add_record true s rd now sched
      = { s with records := s.records ++ [(s.nextId, storedOf rd now)],
                 nextId := s.nextId + 1,
                 warnings := s.warnings ++ dateWarn rd,
                 toasts := s.toasts ++ [msg_record_added],
                 balance := b,
                 errors := s.errors ++ [msg_balance_error] } :=
  add_record_err s rd now sched b h

/-- Witness for C5: all five attempts conflict, the last writer leaves the
balance document at 5, and `add_record` returns the plain success-shaped
state with the error only logged. -/
theorem C5_witness :
    transactional_attempts (if rdIncome100.type = "收入" then rdIncome100.amount
        else -rdIncome100.amount) firestore_max_attempts initState.balance sched5
      = Except.error (some 5)
    ∧ add_record true initState rdIncome100 now2024 sched5
        = { initState with records := [(0, storedOf rdIncome100 now2024)],
                           nextId := 1, toasts := [msg_record_added],
                           balance := some 5, errors := [msg_balance_error] } :=
  ⟨by decide,
   C5_conflict_logged_not_raised initState rdIncome100 now2024 sched5 (some 5) (by decide)⟩

/-- C6: the coordinator-level Append performs the record-store write first
and the balance update second as two separate non-atomic operations: for
any Append or Delete whose balance update exhausts its retry budget, the
record mutation (the appended record, resp. the removal) is still present
in the final state and is not rolled back, while the balance document is
left exactly as the concurrent writers left it (this call's delta absent). -/
theorem C6_no_rollback_on_balance_failure (s : AppState) (rd : RecordData)
    (now : PyDateTime) (sched : List (Option ℤ)) (b : Option ℤ)
    (hA : transactional_attempts (if rd.type = "收入" then rd.amount else -rd.amount)
           firestore_max_attempts s.balance sched = Except.error b)
    (s2 : AppState) (rid : Nat) (ty : String) (amt : ℤ)
    (sched2 : List (Option ℤ)) (b2 : Option ℤ)
    (hD : transactional_attempts (if ty = "收入" then -amt else amt)
           firestore_max_attempts s2.balance sched2 = Except.error b2) :
    (add_record true s rd now sched).records = s.records ++ [(s.nextId, storedOf rd now)]
    ∧ (add_record true s rd now sched).balance = b
    ∧ (delete_record true s2 rid ty amt sched2).records
        = s2.records.filter (fun p => p.1 != rid)
    ∧ (delete_record true s2 rid ty amt sched2).balance = b2 := by
  rw [add_record_err s rd now sched b hA, delete_record_err s2 rid ty amt sched2 b2 hD]
  exact ⟨rfl, rfl, rfl, rfl⟩

/-- Witness for C6: concrete failing Append against the empty store and
failing Delete against the one-record store. -/
theorem C6_witness :
    (add_record true initState rdIncome100 now2024 sched5).records
        = initState.records ++ [(initState.nextId, storedOf rdIncome100 now2024)]
    ∧ (add_record true initState rdIncome100 now2024 sched5).balance = some 5
    ∧ (delete_record true oneRecState 0 "收入" 100 sched5).records
        = oneRecState.records.filter (fun p => p.1 != 0)
    ∧ (delete_record true oneRecState 0 "收入" 100 sched5).balance = some 5 :=
  C6_no_rollback_on_balance_failure initState rdIncome100 now2024 sched5 (some 5) (by decide)
    oneRecState 0 "收入" 100 sched5 (some 5) (by decide)

lemma commitAppend_eq (bal : Option ℤ) (amount : ℤ) :
    commitAppend bal amount = some (bal.getD 0 + amount) := by
  unfold commitAppend
  rw [update_balance_ok]
  simp [mkBalState]

lemma runCommits_some (amounts : List ℤ) : ∀ b0 : ℤ,
    runCommits (some b0) amounts = some (b0 + amounts.sum) := by
  induction amounts with
  | nil => intro b0; simp [runCommits]
  | cons a as ih =>
    intro b0
    show runCommits (commitAppend (some b0) a) as = _
    rw [commitAppend_eq]
    show runCommits (some (b0 + a)) as = _
    rw [ih (b0 + a), List.sum_cons]
    congr 1
    ring

lemma sum_of_all_100 (amounts : List ℤ) (h : ∀ a ∈ amounts, a = 100) :
    amounts.sum = 100 * amounts.length := by
  induction amounts with
  | nil => simp
  | cons a as ih =>
    rw [List.sum_cons, h a (by simp), ih (fun x hx => h x (by simp [hx])), List.length_cons]
    push_cast
    ring

/-- C9: under the compare-and-swap loop, every successful commit applies
read-modify-write atomically, so a concurrent history of N successful
Appends is some serialization of commits and the final balance is the
initial balance plus the sum of all committed deltas; in particular N
Appends of amount 100 against `B0` yield `B0 + 100 * N` regardless of the
interleaving (which only permutes the commit order). -/
theorem C9_concurrent_appends_sum (b0 : ℤ) (amounts : List ℤ) :
    runCommits (some b0) amounts = some (b0 + amounts.sum)
    ∧ ((∀ a ∈ amounts, a = 100) →
        runCommits (some b0) amounts = some (b0 + 100 * amounts.length)) := by
  refine ⟨runCommits_some amounts b0, fun h => ?_⟩
  rw [runCommits_some amounts b0, sum_of_all_100 amounts h]

/-- Witness for C9: three committed Appends of 100 against balance 7. -/
theorem C9_witness :
    (∀ a ∈ ([100, 100, 100] : List ℤ), a = 100)
    ∧ runCommits (some 7) [100, 100, 100]
        = some (7 + 100 * ([100, 100, 100] : List ℤ).length) :=
  ⟨by decide, (C9_concurrent_appends_sum 7 [100, 100, 100]).2 (by decide)⟩

lemma mem_addKey_of_mem (acc : List String) (k x : String) (h : x ∈ acc) :
    x ∈ addKey acc k := by
  unfold addKey
  by_cases hk : k ∈ acc
  · rw [if_pos hk]
    exact h
  · rw [if_neg hk]
    exact List.mem_append_left _ h

lemma mem_addKey_self (acc : List String) (k : String) : k ∈ addKey acc k := by
  unfold addKey
  by_cases hk : k ∈ acc
  · rw [if_pos hk]
    exact hk
  · rw [if_neg hk]
    exact List.mem_append_right _ (List.mem_singleton.2 rfl)

lemma mem_foldl_addKey_of_mem (l : List String) : ∀ acc x, x ∈ acc →
    x ∈ l.foldl addKey acc := by
  induction l with
  | nil =>
    intro acc x h
    exact h
  | cons k rest ih =>
    intro acc x h
    exact ih _ x (mem_addKey_of_mem acc k x h)

lemma mem_foldl_addKey_of_mem_list (l : List String) : ∀ acc x, x ∈ l →
    x ∈ l.foldl addKey acc := by
  induction l with
  | nil =>
    intro acc x h
    simp at h
  | cons k rest ih =>
    intro acc x h
    rcases List.mem_cons.1 h with rfl | h'
    · exact mem_foldl_addKey_of_mem rest _ x (mem_addKey_self acc x)
    · exact ih _ x h'

lemma expected_mem_frameCols (docs : List RawDoc) (c : String)
    (hc : c ∈ expected_columns) : c ∈ frameCols docs := by
  unfold frameCols
  exact mem_foldl_addKey_of_mem_list expected_columns _ c hc

lemma extra_mem_frameCols (docs : List RawDoc) (doc : RawDoc) (hd : doc ∈ docs)
    (k : String) (hk : k ∈ doc.extras.map Prod.fst) : k ∈ frameCols docs := by
  unfold frameCols
  apply mem_foldl_addKey_of_mem
  apply mem_foldl_addKey_of_mem_list
  rw [List.mem_flatten]
  refine ⟨docKeys doc, List.mem_map_of_mem docKeys hd, ?_⟩
  simp [docKeys, List.mem_append, hk]

/-- C10 counterexample: the claim says the returned table contains exactly
the columns id/date/type/category/amount/note/timestamp, but a fetched
record that carries the payment-method fields the form layer writes
(`account_id`/`account_name`) yields a frame with an `account_id` column —
the code builds the frame from the documents' own keys and only ever adds
missing expected columns, never dropping extras. -/
theorem C10_counterexample :
    "account_id" ∈ (get_all_records true (Except.ok [docAcct])).cols
    ∧ "account_id" ∉ expected_columns := by
  decide

/-- C10 amended: the record-listing read is total at its interface — for
every client state and store read outcome (including a failed read, the
`except` branch) it returns a DataFrame and never raises; the frame always
contains at least the expected columns id/date/type/category/amount/note/
timestamp (exactly those on a failed read or an empty record set), extra
stored document fields are preserved as additional columns and pass
through the rows untouched, and every row's amount is the numeric coercion
of the stored field, with missing or unparseable amounts becoming 0 while
numeric amounts pass through. -/
theorem C10_listing_robust (dbo : Bool) (res : Except Unit (List RawDoc)) :
    (∀ c ∈ expected_columns, c ∈ (get_all_records dbo res).cols)
    ∧ (get_all_records dbo (Except.error ())).cols = expected_columns
    ∧ (get_all_records dbo (Except.error ())).rows = []
    ∧ (∀ docs, res = Except.ok docs → dbo = true →
        (get_all_records dbo res).rows = docs.map docToRow)
    ∧ (∀ docs doc k, res = Except.ok docs → dbo = true → doc ∈ docs →
        k ∈ doc.extras.map Prod.fst → k ∈ (get_all_records dbo res).cols)
    ∧ (∀ doc, (docToRow doc).extras = doc.extras)
    ∧ coerceAmount FSVal.absent = 0
    ∧ (∀ s, parseNum s = none → coerceAmount (FSVal.str s) = 0)
    ∧ (∀ q, coerceAmount (FSVal.num q) = q) := by
  refine ⟨?_, ?_, ?_, ?_, ?_, fun doc => rfl, rfl, ?_, fun q => rfl⟩
  · intro c hc
    cases dbo with
    | false => exact hc
    | true =>
      cases res with
      | error e => exact hc
      | ok docs =>
        by_cases hde : docs.isEmpty
        · have hcols : (get_all_records true (Except.ok docs)).cols = expected_columns := by
            simp [get_all_records, hde]
          rw [hcols]
          exact hc
        · have hcols : (get_all_records true (Except.ok docs)).cols = frameCols docs := by
            simp [get_all_records, hde]
          rw [hcols]
          exact expected_mem_frameCols docs c hc
  · cases dbo <;> rfl
  · cases dbo <;> rfl
  · intro docs hres hdbo
    subst hres
    subst hdbo
    by_cases hde : docs.isEmpty
    · rw [List.isEmpty_iff.1 hde]
      simp [get_all_records]
    · simp [get_all_records, hde]
  · intro docs doc k hres hdbo hd hk
    subst hres
    subst hdbo
    have hne : ¬docs.isEmpty := by
      intro hde
      rw [List.isEmpty_iff.1 hde] at hd
      simp at hd
    have hcols : (get_all_records true (Except.ok docs)).cols = frameCols docs := by
      simp [get_all_records, hne]
    rw [hcols]
    exact extra_mem_frameCols docs doc hd k hk
  · intro s h
    simp [coerceAmount, h]

/-- Witness for C10 (amended): one account-bearing document — the expected
columns are present, the rows are the normalized documents with the extra
fields carried through, the `account_id` column appears, and the
unparseable string "N/A" coerces to amount 0. -/
theorem C10_robust_witness :
    "amount" ∈ (get_all_records true (Except.ok [docAcct])).cols
    ∧ (get_all_records true (Except.ok [docAcct])).rows = [docAcct].map docToRow
    ∧ "account_id" ∈ (get_all_records true (Except.ok [docAcct])).cols
    ∧ (docToRow docAcct).extras = docAcct.extras
    ∧ coerceAmount (FSVal.str "N/A") = 0 :=
  ⟨(C10_listing_robust true (Except.ok [docAcct])).1 "amount" (by decide),
   (C10_listing_robust true (Except.ok [docAcct])).2.2.2.1 [docAcct] rfl rfl,
   (C10_listing_robust true (Except.ok [docAcct])).2.2.2.2.1 [docAcct] docAcct
     "account_id" rfl rfl (by decide) (by decide),
   (C10_listing_robust true (Except.ok [docAcct])).2.2.2.2.2.1 docAcct,
   (C10_listing_robust true (Except.ok [docAcct])).2.2.2.2.2.2.2.1 "N/A" (by decide)⟩

/-- C7: a record whose date field is present but unparseable (a string
that `strptime('%Y-%m-%d')` rejects) and whose created-at timestamp is
available normalizes to a date value whose calendar date is the
timestamp's calendar date. -/
theorem C7_date_fallback_to_timestamp (doc : RawDoc) (s : String) (t : PyDateTime)
    (hdate : doc.date = FSVal.str s) (hparse : strptimeYMD s = none)
    (hts : doc.timestamp = FSVal.ts t) :
    Option.map PyDateTime.date (docToRow doc).date = some t.date := by
  simp [docToRow, rowDateRaw, parsed_date, parsed_timestamp, hdate, hparse, hts, toNaive]

/-- Witness for C7: date field "N/A" with created-at
2024-02-01T03:00:00Z normalizes to the calendar date 2024-02-01. -/
theorem C7_witness :
    strptimeYMD "N/A" = none
    ∧ Option.map PyDateTime.date (docToRow docNA).date = some ⟨2024, 2, 1⟩ :=
  ⟨by decide,
   C7_date_fallback_to_timestamp docNA "N/A" ⟨⟨2024, 2, 1⟩, 10800, true⟩ rfl (by decide) rfl⟩

/-- C8: every normalized date (and timestamp) that reaches the
comparison/filter layer through `get_all_records` is timezone-naive — the
whole column is normalized once at the boundary, so aware and naive values
are never mixed there. -/
theorem C8_normalized_dates_naive (dbo : Bool) (res : Except Unit (List RawDoc))
    (row : Row) (h : row ∈ (get_all_records dbo res).rows) :
    (row.date.all fun t => !t.aware) = true
    ∧ (row.timestamp.all fun t => !t.aware) = true := by
  cases dbo with
  | false => simp [get_all_records] at h
  | true =>
    cases res with
    | error e => simp [get_all_records] at h
    | ok docs =>
      by_cases hde : docs.isEmpty
      · simp [get_all_records, hde] at h
      · simp [get_all_records, hde, List.mem_map] at h
        obtain ⟨doc, -, rfl⟩ := h
        cases h1 : rowDateRaw doc <;> cases h2 : parsed_timestamp doc <;>
          simp [docToRow, toNaive, h1, h2]

/-- Witness for C8: the concrete document whose date falls back to its
aware UTC timestamp still yields a naive date and timestamp in the frame. -/
theorem C8_witness :
    docToRow docNA ∈ (get_all_records true (Except.ok [docNA])).rows
    ∧ ((docToRow docNA).date.all fun t => !t.aware) = true
    ∧ ((docToRow docNA).timestamp.all fun t => !t.aware) = true := by
  have h := C8_normalized_dates_naive true (Except.ok [docNA]) (docToRow docNA)
    (by simp [get_all_records])
  exact ⟨by simp [get_all_records], h.1, h.2⟩

lemma signedAmt_storedOf (rd : RecordData) (now : PyDateTime) :
    signedAmt (storedOf rd now) = (if rd.type = "收入" then rd.amount else -rd.amount) := rfl

lemma signedSum_append (l1 l2 : List (Nat × StoredRec)) :
    signedSum (l1 ++ l2) = signedSum l1 + signedSum l2 := by
  simp [signedSum]

lemma signedSum_cons (a : Nat × StoredRec) (l : List (Nat × StoredRec)) :
    signedSum (a :: l) = signedAmt a.2 + signedSum l := by
  simp [signedSum]

lemma signedSum_singleton (a : Nat × StoredRec) : signedSum [a] = signedAmt a.2 := by
  simp [signedSum]

lemma signedSum_filter_of_find (l : List (Nat × StoredRec)) (rid : Nat) :
    ∀ p, (l.map Prod.fst).Nodup → l.find? (fun q => q.1 == rid) = some p →
      signedSum (l.filter fun q => q.1 != rid) = signedSum l - signedAmt p.2 := by
  induction l with
  | nil =>
    intro p _ hf
    simp at hf
  | cons a t ih =>
    intro p hnd hf
    rw [List.map_cons, List.nodup_cons] at hnd
    by_cases ha : (a.1 == rid) = true
    · rw [@List.find?_cons_of_pos _ (fun q => q.1 == rid) a t ha] at hf
      obtain rfl : a = p := by injection hf
      have hrid : a.1 = rid := by simpa using ha
      have hfa : (a.1 != rid) = false := by simp [hrid]
      rw [List.filter_cons, hfa]
      simp only [Bool.false_eq_true, if_false]
      rw [List.filter_eq_self.2 ?_, signedSum_cons]
      · ring
      · intro x hx
        have hne : x.1 ≠ rid := by
          intro hxr
          have hmem : x.1 ∈ List.map Prod.fst t := List.mem_map_of_mem Prod.fst hx
          rw [hxr, ← hrid] at hmem
          exact hnd.1 hmem
        simp [hne]
    · have ha' : (a.1 == rid) = false := by
        cases h : (a.1 == rid)
        · rfl
        · exact absurd h ha
      rw [@List.find?_cons_of_neg _ (fun q => q.1 == rid) a t ha] at hf
      have hfa : (a.1 != rid) = true := by simp [bne, ha']
      rw [List.filter_cons, hfa]
      simp only [if_true]
      rw [signedSum_cons, signedSum_cons, ih p hnd.2 hf]
      ring

lemma StoreInv_applyOp (s : AppState) (op : Op) (hinv : StoreInv s)
    (hok : opOk s op = true) : StoreInv (applyOp s op) := by
  obtain ⟨hnd, hbd, hbal⟩ := hinv
  cases op with
  | append rd now =>
    show StoreInv (add_record true s rd now [])
    rw [add_record_ok]
    refine ⟨?_, ?_, ?_⟩
    · show ((s.records ++ [(s.nextId, storedOf rd now)]).map Prod.fst).Nodup
      rw [List.map_append, List.nodup_append]
      refine ⟨hnd, List.nodup_singleton _, ?_⟩
      intro x hx hx'
      obtain ⟨q, hq, rfl⟩ := List.mem_map.1 hx
      simp only [List.map_cons, List.map_nil, List.mem_singleton] at hx'
      exact absurd (hx' ▸ hbd q hq) (lt_irrefl _)
    · intro q hq
      rcases List.mem_append.1 hq with h | h
      · exact Nat.lt_succ_of_lt (hbd q h)
      · rw [List.mem_singleton.1 h]
        exact Nat.lt_succ_self _
    · show s.balance.getD 0 + (if rd.type = "收入" then rd.amount else -rd.amount)
          = signedSum (s.records ++ [(s.nextId, storedOf rd now)])
      rw [signedSum_append, signedSum_singleton, hbal, signedAmt_storedOf]
  | delete rid =>
    obtain ⟨q, hq⟩ := Option.isSome_iff_exists.1 hok
    show StoreInv
      (match s.records.find? (fun p => p.1 == rid) with
       | some p => delete_record true s rid p.2.type p.2.amount []
       | none => s)
    rw [hq]
    show StoreInv (delete_record true s rid q.2.type q.2.amount [])
    rw [delete_record_ok]
    refine ⟨?_, ?_, ?_⟩
    · exact List.Nodup.sublist (List.Sublist.map Prod.fst (List.filter_sublist _)) hnd
    · intro r hr
      exact hbd r (List.mem_of_mem_filter hr)
    · show s.balance.getD 0 + (if q.2.type = "收入" then -q.2.amount else q.2.amount)
          = signedSum (s.records.filter fun r => r.1 != rid)
      rw [signedSum_filter_of_find s.records rid q hnd hq, hbal]
      by_cases h : q.2.type = "收入" <;> simp [signedAmt, h] <;> ring

lemma StoreInv_runOps (ops : List Op) : ∀ s, StoreInv s → opsOk s ops = true →
    StoreInv (runOps s ops) := by
  induction ops with
  | nil =>
    intro s h _
    exact h
  | cons op rest ih =>
    intro s h hok
    have hok' : (opOk s op && opsOk (applyOp s op) rest) = true := hok
    obtain ⟨h1, h2⟩ := Bool.and_eq_true_iff.1 hok'
    show StoreInv (runOps (applyOp s op) rest)
    exact ih (applyOp s op) (StoreInv_applyOp s op h h1) h2

lemma opsOk_of_append (p t : List Op) : ∀ s, opsOk s (p ++ t) = true →
    opsOk s p = true := by
  induction p with
  | nil =>
    intro s _
    rfl
  | cons op rest ih =>
    intro s h
    have h' : (opOk s op && opsOk (applyOp s op) (rest ++ t)) = true := h
    obtain ⟨h1, h2⟩ := Bool.and_eq_true_iff.1 h'
    show (opOk s op && opsOk (applyOp s op) rest) = true
    exact Bool.and_eq_true_iff.2 ⟨h1, ih (applyOp s op) h2⟩

lemma initState_inv : StoreInv initState := by
  refine ⟨List.nodup_nil, ?_, rfl⟩
  intro p hp
  simp [initState] at hp

/-- C1: starting from an absent (= 0) balance document and an empty record
set, after every admissible sequence of coordinator-level Append and
Delete operations whose balance updates all commit (no conflict), the
stored Balance equals the signed sum (+amount for 收入/Income, -amount
otherwise) over the live records — and, the hypothesis being closed under
sequence prefixes, this holds after every prefix of the sequence. -/
theorem C1_balance_is_signed_sum (ops p : List Op)
    (hok : opsOk initState ops = true) (hp : ∃ t, p ++ t = ops) :
    (runOps initState p).balance.getD 0 = signedSum (runOps initState p).records := by
  obtain ⟨t, rfl⟩ := hp
  exact (StoreInv_runOps p initState initState_inv (opsOk_of_append p t initState hok)).2.2

/-- Witness for C1: the end-to-end scenario — Append(Expense 120),
Append(Income 5000), Delete(first id): every prefix is admissible and the
final balance 4880 + 120 = 5000 matches the signed sum over the one
remaining Income record. -/
theorem C1_witness :
    opsOk initState opsW = true
    ∧ (runOps initState opsW).balance.getD 0 = signedSum (runOps initState opsW).records :=
  ⟨by decide, C1_balance_is_signed_sum opsW opsW (by decide) ⟨[], rfl⟩⟩
